import Mathlib

/-!
Verification of the simultaneous heating + cooling analyzer
(`streamlit_simultaneous.py`).

The program is a linear pipeline: load two spreadsheet sheets, parse
building names out of column headers, inner-join the two series of the
selected building on timestamp, flag rows where both loads strictly
exceed a threshold, and offer the simultaneous subset as a CSV download.

Embedding conventions:
* column names and building names are `List Char` (Python `str`);
* timestamps are `Nat` (any totally ordered stamp after parsing);
* load values and the threshold are `ℚ` (exact stand-in for floats;
  only order comparisons are performed on them);
* a sheet row whose `Timestamp` failed `pd.to_datetime(..., errors="coerce")`
  is carried as `none`;
* exceptions raised by `pandas` (missing worksheet, missing column)
  are modelled with `Except String`.
-/

/-! ### Regex matching for `extract_building_names` (source lines 40-47)

The source matches each column against the pattern
`fr"(.+?) {suffix} \(kbtuh\)"` with `re.match`, which anchors at the
start of the string only.  `(.+?)` is a non-greedy, non-empty group of
non-newline characters, and the rest of the pattern is literal, so a
column matches exactly when some non-empty newline-free starting
segment is followed by the literal marker `" {suffix} (kbtuh)"`, and
the captured group is the shortest such segment. -/

/-- Boolean test that `p` is a starting segment of `l`. -/
def lpre : List Char → List Char → Bool
  | [], _ => true
  | _ :: _, [] => false
  | a :: p, b :: l => a == b && lpre p l

/-- The literal part of the pattern that follows the capture group:
`" {suffix} (kbtuh)"`. -/
def markerOf (suffix : List Char) : List Char :=
  " ".data ++ suffix ++ " (kbtuh)".data

/-- Regex engine for `re.match(fr"(.+?) {suffix} \(kbtuh\)", col)`:
scan `col` left to right accumulating the candidate group `acc`;
the first position where the literal marker starts the remaining
input yields the (shortest, hence non-greedy) match.  A newline stops
the scan because `.` does not match newlines. -/
def findSplit (m : List Char) (acc : List Char) : List Char → Option (List Char)
  | [] => none
  | c :: rest =>
    if c = '\n' then none
    else if lpre m rest then some (acc ++ [c])
    else findSplit m (acc ++ [c]) rest

/-- Source lines 40-47: collect `m.group(1)` for every column where
`re.match` succeeds; non-matching columns are skipped. -/
def extract_building_names (columns : List (List Char)) (suffix : List Char) :
    List (List Char) :=
  columns.filterMap (fun col => findSplit (markerOf suffix) [] col)

/-! ### Common buildings (source lines 49-53) -/

/-- Source line 53: `sorted(list(set(chw_buildings) & set(mthw_buildings)))`.
A Python `set` intersection followed by `sorted` is the lexicographically
sorted deduplicated intersection of the two name lists. -/
def common_buildings (chwCols mthwCols : List (List Char)) : List (List Char) :=
  List.insertionSort (· ≤ ·)
    ((extract_building_names chwCols "CHW".data ∩
      extract_building_names mthwCols "MTHW".data).dedup)

/-- Spec-side restatement of §4.2: the sorted, deduplicated set
intersection of the names parsed independently from each sheet's
columns (used to compare `common_buildings` against the spec's words). -/
def spec_common_buildings (chwCols mthwCols : List (List Char)) : List (List Char) :=
  List.insertionSort (· ≤ ·)
    (((extract_building_names chwCols "CHW".data).dedup.filter
      (fun b => (extract_building_names mthwCols "MTHW".data).elem b)).dedup)

/-! ### Loader, row level (source lines 21-32)

`load_data` computes `pd.to_datetime(df["Timestamp"], errors="coerce")`
(unparseable stamps become null), drops the null rows, and sorts by the
parsed stamp.  A raw row is a parse result together with the row's
value columns, which the source never touches. -/

/-- Timestamp order on processed rows (`df.sort_values("datetime")`). -/
def tsLE (a b : Nat × List ℚ) : Prop := a.1 ≤ b.1

instance : DecidableRel tsLE := fun a b => inferInstanceAs (Decidable (a.1 ≤ b.1))

instance : IsTotal (Nat × List ℚ) tsLE := ⟨fun a b => Nat.le_total a.1 b.1⟩

instance : IsTrans (Nat × List ℚ) tsLE := ⟨fun _ _ _ => Nat.le_trans⟩

/-- A raw row survives iff its timestamp parsed; its values ride along. -/
def parseRow (r : Option Nat × List ℚ) : Option (Nat × List ℚ) :=
  r.1.map (fun t => (t, r.2))

/-- Source lines 27-30 for one sheet: coerce timestamps, drop the rows
whose stamp did not parse, sort ascending by the parsed stamp. -/
def load_sheet (raw : List (Option Nat × List ℚ)) : List (Nat × List ℚ) :=
  List.insertionSort tsLE (raw.filterMap parseRow)

/-! ### Loader, sheet/column access (source lines 21-32)

`pd.read_excel` raises when the named worksheet is absent and
`df["Timestamp"]` raises a `KeyError` when the column is absent; the
streamlit script catches nothing, so either exception aborts the run.
Modelled with `Except String`. -/

/-- A sheet as named columns; only the parse status of the timestamp
cells matters for the load-failure claims. -/
abbrev XSheet := List (String × List (Option Nat))

/-- The `pd.read_excel(DATA_FILE, sheet_name=...)` call: error when the
worksheet is missing (source lines 23-24). -/
def lookupSheet (file : List (String × XSheet)) (name : String) :
    Except String XSheet :=
  match file.lookup name with
  | some s => .ok s
  | none => .error ("Worksheet named " ++ name ++ " not found")

/-- The `df["Timestamp"]` access: `KeyError` when the column is missing
(source line 28). -/
def getColumn (sheet : XSheet) (name : String) : Except String (List (Option Nat)) :=
  match sheet.lookup name with
  | some c => .ok c
  | none => .error ("KeyError: " ++ name)

/-- Coerce-drop-sort applied to one timestamp column. -/
def cleanTimestamps (ts : List (Option Nat)) : List Nat :=
  List.insertionSort (· ≤ ·) (ts.filterMap id)

/-- Source lines 21-32, `load_data()`: read both sheets, then fix the
timestamp column of each; the first raised exception aborts. -/
def load_data (file : List (String × XSheet)) : Except String (List Nat × List Nat) :=
  match lookupSheet file "CHW hourly" with
  | .error e => .error e
  | .ok chw =>
    match lookupSheet file "MTHW hourly" with
    | .error e => .error e
    | .ok mthw =>
      match getColumn chw "Timestamp" with
      | .error e => .error e
      | .ok tsC =>
        match getColumn mthw "Timestamp" with
        | .error e => .error e
        | .ok tsM => .ok (cleanTimestamps tsC, cleanTimestamps tsM)

/-! ### Merge and threshold filter (source lines 87-100) -/

/-- A row of the merged frame after the boolean columns of lines 96-98
have been added. -/
structure JoinedRow where
  datetime : Nat
  CHW : ℚ
  MTHW : ℚ
  CHW_on : Bool
  MTHW_on : Bool
  simul : Bool
deriving DecidableEq, Repr

/-- Source lines 87-92: `pd.merge(..., on="datetime", how="inner")` on
the two 2-column frames.  Each left row pairs with every right row
carrying an equal timestamp (order: left order, then right order). -/
def mergeInner (chw mthw : List (Nat × ℚ)) : List (Nat × ℚ × ℚ) :=
  chw.flatMap (fun x =>
    (mthw.filter (fun y => y.1 == x.1)).map (fun y => (x.1, x.2, y.2)))

/-- Source lines 94-98: rename to `CHW`/`MTHW` and add the three
boolean columns `CHW_on = CHW > threshold`, `MTHW_on = MTHW > threshold`,
`simul = CHW_on & MTHW_on`. -/
def analyze (chw mthw : List (Nat × ℚ)) (threshold : ℚ) : List JoinedRow :=
  (mergeInner chw mthw).map (fun r =>
    { datetime := r.1
      CHW := r.2.1
      MTHW := r.2.2
      CHW_on := decide (r.2.1 > threshold)
      MTHW_on := decide (r.2.2 > threshold)
      simul := decide (r.2.1 > threshold) && decide (r.2.2 > threshold) })

/-- Source line 100: `simul_df = df[df["simul"]]`. -/
def simulList (chw mthw : List (Nat × ℚ)) (threshold : ℚ) : List JoinedRow :=
  (analyze chw mthw threshold).filter (fun r => r.simul)

/-! ### Download artifact (source lines 94-98 and 156-159) -/

/-- Python `str.replace(pat, rep)`: replace every occurrence of `pat`,
scanning left to right (the source uses it with `pat = " "`). -/
def pyReplace (pat rep : List Char) : List Char → List Char
  | [] => []
  | c :: rest =>
    if lpre pat (c :: rest) then
      rep ++ pyReplace pat rep (List.drop (pat.length - 1) rest)
    else
      c :: pyReplace pat rep rest
termination_by s => s.length
decreasing_by
  · simp only [List.length_cons, List.length_drop]
    exact Nat.lt_succ_of_le (Nat.sub_le _ _)
  · simp

/-- Source line 156: `f"simultaneous_{building.replace(' ', '_')}.csv"`. -/
def out_file (building : List Char) : List Char :=
  "simultaneous_".data ++ pyReplace " ".data "_".data building ++ ".csv".data

/-- Columns of the merged frame after the rename of line 94. -/
def mergeColumns : List String := ["datetime", "CHW", "MTHW"]

/-- Columns of `simul_df`: lines 96-98 append the three boolean columns
to the merged frame, and the row filter of line 100 keeps all columns,
so `simul_df.to_csv(index=False)` (line 159) serializes all six. -/
def simulCsvColumns : List String := mergeColumns ++ ["CHW_on", "MTHW_on", "simul"]

/-- The download of line 159: filename, CSV header columns, and one
serialized record per simultaneous row. -/
def downloadArtifact (chw mthw : List (Nat × ℚ)) (threshold : ℚ)
    (building : List Char) : List Char × List String × List JoinedRow :=
  (out_file building, simulCsvColumns, simulList chw mthw threshold)

/-! ### Script control flow (source lines 49-159) -/

/-- A per-building sheet: each full column name paired with its
`(datetime, value)` series, standing for `df[["datetime", col]]`. -/
abbrev BSheet := List (List Char × List (Nat × ℚ))

/-- Observable outcome of one script run: whether `st.stop()` ended it
early, the conditional notices emitted (`st.success` / `st.info` /
`st.write` texts), the joined frame if one was computed, and the
download artifact if one was offered. -/
structure AppResult where
  stoppedEarly : Bool
  notices : List String
  joined : Option (List JoinedRow)
  download : Option (List Char × List String × List JoinedRow)
deriving DecidableEq

/-- Source lines 49-159 after loading: compute the common buildings,
let `st.selectbox` pick the first option (`None` when the option list
is empty), and `st.stop()` on a falsy selection — emitting nothing.
Otherwise run the merge/filter pipeline and offer the download. -/
def runApp (chw mthw : BSheet) (threshold : ℚ) : AppResult :=
  let common := common_buildings (chw.map Prod.fst) (mthw.map Prod.fst)
  match common.head? with
  | none => { stoppedEarly := true, notices := [], joined := none, download := none }
  | some b =>
    if b.isEmpty then
      { stoppedEarly := true, notices := [], joined := none, download := none }
    else
      let chwSeries := (List.lookup (b ++ " CHW (kbtuh)".data) chw).getD []
      let mthwSeries := (List.lookup (b ++ " MTHW (kbtuh)".data) mthw).getD []
      let df := analyze chwSeries mthwSeries threshold
      let s := df.filter (fun r => r.simul)
      { stoppedEarly := false
        notices :=
          ["Selected Building: **" ++ String.mk b ++ "**",
           "Using threshold: **" ++ toString threshold ++ " kBTU/h**",
           "Total hours detected: " ++ toString s.length,
           "Saved output file: **" ++ String.mk (out_file b) ++ "**"]
        joined := some df
        download := some (downloadArtifact chwSeries mthwSeries threshold b) }

/-! ## Helper lemmas -/

lemma lpre_iff (p l : List Char) : lpre p l = true ↔ ∃ t, l = p ++ t := by
  induction p generalizing l with
  | nil => simp [lpre]
  | cons a p ih =>
    cases l with
    | nil => simp [lpre]
    | cons b l =>
      simp only [lpre, Bool.and_eq_true, beq_iff_eq, ih, List.cons_append]
      constructor
      · rintro ⟨rfl, t, rfl⟩
        exact ⟨t, rfl⟩
      · rintro ⟨t, ht⟩
        injection ht with h1 h2
        exact ⟨h1.symm, t, h2⟩

lemma mem_mergeInner {chw mthw : List (Nat × ℚ)} {t : Nat} {c m : ℚ} :
    (t, c, m) ∈ mergeInner chw mthw ↔ (t, c) ∈ chw ∧ (t, m) ∈ mthw := by
  simp only [mergeInner, List.mem_flatMap, List.mem_map, List.mem_filter, beq_iff_eq]
  constructor
  · rintro ⟨⟨tx, cx⟩, hx, ⟨ty, my⟩, ⟨hy, hkey⟩, heq⟩
    injection heq with h1 h23
    injection h23 with h2 h3
    subst h1; subst h2; subst h3
    simp only at hkey
    subst hkey
    exact ⟨hx, hy⟩
  · rintro ⟨h1, h2⟩
    exact ⟨(t, c), h1, (t, m), ⟨h2, rfl⟩, rfl⟩

lemma mem_analyze {chw mthw : List (Nat × ℚ)} {th : ℚ} {r : JoinedRow} :
    r ∈ analyze chw mthw th ↔
      ∃ t c m, (t, c) ∈ chw ∧ (t, m) ∈ mthw ∧
        r = ⟨t, c, m, decide (c > th), decide (m > th),
             decide (c > th) && decide (m > th)⟩ := by
  simp only [analyze, List.mem_map]
  constructor
  · rintro ⟨⟨t, c, m⟩, hmem, rfl⟩
    exact ⟨t, c, m, (mem_mergeInner.1 hmem).1, (mem_mergeInner.1 hmem).2, rfl⟩
  · rintro ⟨t, c, m, h1, h2, rfl⟩
    exact ⟨(t, c, m), mem_mergeInner.2 ⟨h1, h2⟩, rfl⟩

lemma length_filter_add_length_filter_neg (p : (Nat × ℚ) → Bool) (l : List (Nat × ℚ)) :
    (l.filter p).length + (l.filter (fun a => !(p a))).length = l.length := by
  induction l with
  | nil => simp
  | cons x xs ih =>
    cases hx : p x <;> simp [List.filter_cons, hx] <;> omega

lemma length_filter_key_le_one (mthw : List (Nat × ℚ))
    (hn : (mthw.map Prod.fst).Nodup) (t : Nat) :
    (mthw.filter (fun y => y.1 == t)).length ≤ 1 := by
  induction mthw with
  | nil => simp
  | cons y ys ih =>
    simp only [List.map_cons, List.nodup_cons] at hn
    by_cases hy : y.1 = t
    · have hnil : ys.filter (fun z => z.1 == t) = [] := by
        apply List.filter_eq_nil_iff.2
        intro z hz
        simp only [beq_iff_eq]
        intro hzt
        exact hn.1 (by rw [hy, ← hzt]; exact List.mem_map_of_mem Prod.fst hz)
      simp [List.filter_cons, hy, hnil]
    · simpa [List.filter_cons, hy] using ih hn.2

lemma mergeInner_cons (x : Nat × ℚ) (chw mthw : List (Nat × ℚ)) :
    mergeInner (x :: chw) mthw =
      (mthw.filter (fun y => y.1 == x.1)).map (fun y => (x.1, x.2, y.2)) ++
        mergeInner chw mthw := by
  simp [mergeInner]

lemma mergeInner_congr (a : List (Nat × ℚ)) :
    ∀ b b' : List (Nat × ℚ),
      (∀ x ∈ a, b.filter (fun y => y.1 == x.1) = b'.filter (fun y => y.1 == x.1)) →
      mergeInner a b = mergeInner a b' := by
  induction a with
  | nil => intro b b' _; simp [mergeInner]
  | cons x xs ih =>
    intro b b' h
    rw [mergeInner_cons, mergeInner_cons, h x (List.mem_cons_self x xs),
      ih b b' (fun z hz => h z (List.mem_cons_of_mem x hz))]

lemma mergeInner_length_le_left (chw mthw : List (Nat × ℚ))
    (hm : (mthw.map Prod.fst).Nodup) :
    (mergeInner chw mthw).length ≤ chw.length := by
  induction chw with
  | nil => simp [mergeInner]
  | cons x xs ih =>
    rw [mergeInner_cons]
    simp only [List.length_append, List.length_map, List.length_cons]
    have h1 := length_filter_key_le_one mthw hm x.1
    omega

lemma filter_key_restrict (b : List (Nat × ℚ)) (z x : Nat) (hzx : z ≠ x) :
    b.filter (fun y => y.1 == z) =
      (b.filter (fun y => !(y.1 == x))).filter (fun y => y.1 == z) := by
  induction b with
  | nil => rfl
  | cons y ys ih =>
    by_cases hy : y.1 = z
    · have hx : (y.1 == x) = false := by
        simp only [beq_eq_false_iff_ne, ne_eq, hy]
        exact hzx
      simp [List.filter_cons, hy, hx, hzx, ih]
    · by_cases hyx : y.1 = x
      · simp [List.filter_cons, hy, hyx, Ne.symm hzx, ih]
      · simp [List.filter_cons, hy, hyx, Ne.symm hzx, ih]

lemma mergeInner_length_le_right (chw : List (Nat × ℚ)) :
    ∀ mthw : List (Nat × ℚ), (chw.map Prod.fst).Nodup →
      (mergeInner chw mthw).length ≤ mthw.length := by
  induction chw with
  | nil => intro mthw _; simp [mergeInner]
  | cons x xs ih =>
    intro mthw hc
    simp only [List.map_cons, List.nodup_cons] at hc
    rw [mergeInner_cons]
    simp only [List.length_append, List.length_map]
    have hrest : mergeInner xs mthw =
        mergeInner xs (mthw.filter (fun y => !(y.1 == x.1))) := by
      apply mergeInner_congr
      intro z hz
      have hzx : z.1 ≠ x.1 := by
        intro hzeq
        exact hc.1 (by rw [← hzeq]; exact List.mem_map_of_mem Prod.fst hz)
      exact filter_key_restrict mthw z.1 x.1 hzx
    rw [hrest]
    have h2 := ih (mthw.filter (fun y => !(y.1 == x.1))) hc.2
    have h3 := length_filter_add_length_filter_neg (fun y => y.1 == x.1) mthw
    omega

lemma mergeInner_eq_nil_of_disjoint (chw mthw : List (Nat × ℚ))
    (h : ∀ p ∈ chw, ∀ q ∈ mthw, p.1 ≠ q.1) : mergeInner chw mthw = [] := by
  apply List.eq_nil_iff_forall_not_mem.2
  rintro ⟨t, c, m⟩ hmem
  obtain ⟨h1, h2⟩ := mem_mergeInner.1 hmem
  exact h (t, c) h1 (t, m) h2 rfl

/-! ## Claims about the merge and the threshold filter -/

/-- C1: every joined row satisfies `simul = CHW_on && MTHW_on`,
`CHW_on = (CHW > threshold)` and `MTHW_on = (MTHW > threshold)` with
strict inequality (a value equal to the threshold is not on), and the
simultaneous subset is exactly the set of rows where the conjunction
holds. -/
theorem c1_threshold_booleans (chw mthw : List (Nat × ℚ)) (threshold : ℚ) :
    (∀ r ∈ analyze chw mthw threshold,
      r.simul = (r.CHW_on && r.MTHW_on) ∧
      r.CHW_on = decide (r.CHW > threshold) ∧
      r.MTHW_on = decide (r.MTHW > threshold) ∧
      (r.CHW = threshold → r.CHW_on = false) ∧
      (r.MTHW = threshold → r.MTHW_on = false)) ∧
    simulList chw mthw threshold =
      (analyze chw mthw threshold).filter
        (fun r => decide (r.CHW > threshold) && decide (r.MTHW > threshold)) := by
  constructor
  · intro r hr
    obtain ⟨t, c, m, _, _, rfl⟩ := mem_analyze.1 hr
    refine ⟨rfl, rfl, rfl, ?_, ?_⟩
    · intro hc
      have hc' : c = threshold := hc
      subst hc'
      simp
    · intro hm
      have hm' : m = threshold := hm
      subst hm'
      simp
  · apply List.filter_congr
    intro r hr
    obtain ⟨t, c, m, _, _, rfl⟩ := mem_analyze.1 hr
    rfl

/-- C1 witness: a concrete joined row (CHW=750, MTHW=800, threshold
700) satisfies the boolean invariants. -/
theorem c1_threshold_booleans_witness :
    (JoinedRow.mk 0 750 800 true true true).simul =
      ((JoinedRow.mk 0 750 800 true true true).CHW_on &&
       (JoinedRow.mk 0 750 800 true true true).MTHW_on) ∧
    (JoinedRow.mk 0 750 800 true true true).CHW_on =
      decide ((JoinedRow.mk 0 750 800 true true true).CHW > (700 : ℚ)) ∧
    (JoinedRow.mk 0 750 800 true true true).MTHW_on =
      decide ((JoinedRow.mk 0 750 800 true true true).MTHW > (700 : ℚ)) ∧
    ((JoinedRow.mk 0 750 800 true true true).CHW = (700 : ℚ) →
      (JoinedRow.mk 0 750 800 true true true).CHW_on = false) ∧
    ((JoinedRow.mk 0 750 800 true true true).MTHW = (700 : ℚ) →
      (JoinedRow.mk 0 750 800 true true true).MTHW_on = false) :=
  (c1_threshold_booleans [(0, 750)] [(0, 800)] 700).1
    (JoinedRow.mk 0 750 800 true true true) (by decide)

/-- C3: raising the threshold shrinks the simultaneous set — every row
simultaneous at the larger threshold `t2` is simultaneous at the
smaller threshold `t1`. -/
theorem c3_simultaneous_antitone (chw mthw : List (Nat × ℚ)) (t1 t2 : ℚ)
    (ht : t1 < t2) (r : JoinedRow) (hr : r ∈ simulList chw mthw t2) :
    r ∈ simulList chw mthw t1 := by
  obtain ⟨hmem, hsim⟩ := List.mem_filter.1 hr
  obtain ⟨t, c, m, h1, h2, rfl⟩ := mem_analyze.1 hmem
  simp only [Bool.and_eq_true, decide_eq_true_eq, gt_iff_lt] at hsim
  have hc1 : t1 < c := lt_trans ht hsim.1
  have hm1 : t1 < m := lt_trans ht hsim.2
  have e2c : decide (c > t2) = true := decide_eq_true hsim.1
  have e2m : decide (m > t2) = true := decide_eq_true hsim.2
  have e1c : decide (c > t1) = true := decide_eq_true hc1
  have e1m : decide (m > t1) = true := decide_eq_true hm1
  apply List.mem_filter.2
  refine ⟨mem_analyze.2 ⟨t, c, m, h1, h2, ?_⟩, ?_⟩
  · rw [e2c, e2m, e1c, e1m]
  · show (decide (c > t2) && decide (m > t2)) = true
    rw [e2c, e2m]
    rfl

/-- C3 witness: with CHW=900 and MTHW=900 at one timestamp, the row
simultaneous at threshold 800 is also simultaneous at threshold 700. -/
theorem c3_simultaneous_antitone_witness :
    JoinedRow.mk 0 900 900 true true true ∈ simulList [(0, 900)] [(0, 900)] 700 :=
  c3_simultaneous_antitone [(0, 900)] [(0, 900)] 700 800 (by norm_num)
    (JoinedRow.mk 0 900 900 true true true) (by decide)

/-- C4 counterexample: with a duplicated timestamp on both sides the
inner join is a per-key cartesian product, so the joined row count (4)
exceeds the minimum of the two source row counts (2). -/
theorem c4_join_count_counterexample :
    ¬ ((mergeInner [(0, (1 : ℚ)), (0, 2)] [(0, (3 : ℚ)), (0, 4)]).length ≤
        min ([(0, (1 : ℚ)), (0, 2)] : List (Nat × ℚ)).length
            ([(0, (3 : ℚ)), (0, 4)] : List (Nat × ℚ)).length) := by
  decide

/-- C4 (amended): every joined row's timestamp occurs in both source
tables; when neither table repeats a timestamp the joined row count is
at most the minimum of the two source row counts (with duplicated
timestamps the join multiplies matching rows and can exceed it); and
an empty timestamp intersection yields the empty result, not a
failure. -/
theorem c4_join_soundness (chw mthw : List (Nat × ℚ)) :
    (∀ t c m, (t, c, m) ∈ mergeInner chw mthw →
       (∃ c', (t, c') ∈ chw) ∧ ∃ m', (t, m') ∈ mthw) ∧
    ((chw.map Prod.fst).Nodup → (mthw.map Prod.fst).Nodup →
       (mergeInner chw mthw).length ≤ min chw.length mthw.length) ∧
    ((∀ p ∈ chw, ∀ q ∈ mthw, p.1 ≠ q.1) → mergeInner chw mthw = []) := by
  refine ⟨?_, ?_, mergeInner_eq_nil_of_disjoint chw mthw⟩
  · intro t c m hmem
    obtain ⟨h1, h2⟩ := mem_mergeInner.1 hmem
    exact ⟨⟨c, h1⟩, ⟨m, h2⟩⟩
  · intro hc hm
    exact le_min (mergeInner_length_le_left chw mthw hm)
      (mergeInner_length_le_right chw mthw hc)

/-- C4 witness: on duplicate-free tables sharing one timestamp, the
joined row count respects the min bound, and disjoint timestamps give
the empty join. -/
theorem c4_join_soundness_witness :
    (mergeInner [(0, (1 : ℚ)), (1, 2)] [(1, (5 : ℚ))]).length ≤
        min ([(0, (1 : ℚ)), (1, 2)] : List (Nat × ℚ)).length
            ([(1, (5 : ℚ))] : List (Nat × ℚ)).length ∧
      mergeInner [(0, (1 : ℚ))] [(1, (5 : ℚ))] = [] :=
  ⟨(c4_join_soundness [(0, 1), (1, 2)] [(1, 5)]).2.1 (by decide) (by decide),
   (c4_join_soundness [(0, 1)] [(1, 5)]).2.2 (by decide)⟩

/-! ## Claims about the download artifact -/

/-- C2 counterexample: the serialized frame is `simul_df`, whose
columns after lines 96-98 are the six columns
`datetime, CHW, MTHW, CHW_on, MTHW_on, simul` — not exactly
`datetime, CHW, MTHW` as claimed (only the on-screen table of line 109
is restricted to those three). -/
theorem c2_csv_columns_counterexample :
    simulCsvColumns ≠ ["datetime", "CHW", "MTHW"] := by
  decide

lemma pyReplace_space (b : List Char) :
    pyReplace " ".data "_".data b =
      b.map (fun c => if c = ' ' then '_' else c) := by
  induction b with
  | nil => simp [pyReplace]
  | cons c rest ih =>
    by_cases hc : c = ' '
    · subst hc
      rw [pyReplace]
      simp [lpre, ih]
    · rw [pyReplace]
      have : lpre " ".data (c :: rest) = false := by
        simp [lpre]
        intro h
        exact absurd h.symm hc
      simp [this, hc, ih]

/-- C2 (amended): the download is named
`simultaneous_<building with every space replaced by an underscore>.csv`,
its header carries the six columns
`datetime, CHW, MTHW, CHW_on, MTHW_on, simul`, and it serializes
exactly the simultaneous rows (one record per simultaneous timestamp). -/
theorem c2_download_artifact (chw mthw : List (Nat × ℚ)) (threshold : ℚ)
    (building : List Char) :
    (downloadArtifact chw mthw threshold building).1 =
        "simultaneous_".data ++
          (building.map (fun c => if c = ' ' then '_' else c)) ++ ".csv".data ∧
    (downloadArtifact chw mthw threshold building).2.1 =
        ["datetime", "CHW", "MTHW", "CHW_on", "MTHW_on", "simul"] ∧
    (downloadArtifact chw mthw threshold building).2.2 =
        (analyze chw mthw threshold).filter (fun r => r.simul) := by
  refine ⟨?_, rfl, rfl⟩
  show out_file building = _
  rw [out_file, pyReplace_space]

/-! ## Claims about the header parser -/

lemma findSplit_some (m : List Char) :
    ∀ (col acc b : List Char), findSplit m acc col = some b →
      ∃ g t, b = acc ++ g ∧ g ≠ [] ∧ (∀ c ∈ g, c ≠ '\n') ∧ col = g ++ m ++ t := by
  intro col
  induction col with
  | nil => intro acc b h; simp [findSplit] at h
  | cons c rest ih =>
    intro acc b h
    simp only [findSplit] at h
    by_cases hnl : c = '\n'
    · rw [if_pos hnl] at h; exact absurd h (by simp)
    · rw [if_neg hnl] at h
      by_cases hp : lpre m rest = true
      · rw [if_pos hp] at h
        injection h with hb
        obtain ⟨t, ht⟩ := (lpre_iff m rest).1 hp
        exact ⟨[c], t, hb.symm, by simp, by simp [hnl], by simp [ht]⟩
      · rw [if_neg hp] at h
        obtain ⟨g, t, hb, hg, hgnl, hcol⟩ := ih (acc ++ [c]) b h
        refine ⟨c :: g, t, by rw [hb]; simp, by simp, ?_, by simp [hcol]⟩
        intro ch hch
        rcases List.mem_cons.1 hch with rfl | hch'
        · exact hnl
        · exact hgnl ch hch'

lemma findSplit_of_split (m : List Char) :
    ∀ (name tail acc : List Char), name ≠ [] → (∀ c ∈ name, c ≠ '\n') →
      ∃ b, findSplit m acc (name ++ m ++ tail) = some b := by
  intro name
  induction name with
  | nil => intro tail acc h _; exact absurd rfl h
  | cons c name' ih =>
    intro tail acc _ hnl
    have hc : ¬ (c = '\n') := hnl c (List.mem_cons_self c name')
    cases name' with
    | nil =>
      refine ⟨acc ++ [c], ?_⟩
      have hlp : lpre m (m ++ tail) = true := (lpre_iff _ _).2 ⟨tail, rfl⟩
      simp [findSplit, hc, hlp]
    | cons d name'' =>
      by_cases hp : lpre m (d :: (name'' ++ (m ++ tail))) = true
      · refine ⟨acc ++ [c], ?_⟩
        simp only [List.cons_append, List.append_assoc] at hp ⊢
        simp [findSplit, hc, hp]
      · obtain ⟨b, hb⟩ := ih tail (acc ++ [c]) (by simp)
          (fun ch hch => hnl ch (List.mem_cons_of_mem c hch))
        refine ⟨b, ?_⟩
        simp only [List.cons_append, List.append_assoc] at hb
        have harg : (c :: d :: name'') ++ m ++ tail =
            c :: (d :: (name'' ++ (m ++ tail))) := by simp
        rw [harg, findSplit, if_neg hc, if_neg hp]
        exact hb

/-- C5 counterexample: `re.match` is anchored at the start only, so the
column `"Foo CHW (kbtuh)xyz"` — which is not exactly of the form
`"<name> CHW (kbtuh)"`, having trailing characters — still contributes
the name `"Foo"`. -/
theorem c5_exact_match_counterexample :
    extract_building_names ["Foo CHW (kbtuh)xyz".data] "CHW".data = ["Foo".data] ∧
    "Foo CHW (kbtuh)xyz".data ≠ "Foo".data ++ markerOf "CHW".data := by
  decide

/-- C5 (amended): a column contributes a (non-empty) prefix name
exactly when the column name BEGINS with `"<name> <suffix> (kbtuh)"` —
trailing characters after `"(kbtuh)"` are allowed because `re.match`
anchors at the start only; every column with no such beginning is
silently ignored, never an error. -/
theorem c5_start_anchored_match (suffix : List Char) (cols : List (List Char)) :
    (∀ b ∈ extract_building_names cols suffix,
       b ≠ [] ∧ ∃ col ∈ cols, ∃ tail, col = b ++ markerOf suffix ++ tail) ∧
    (∀ col ∈ cols,
       (∃ name tail, name ≠ [] ∧ (∀ c ∈ name, c ≠ '\n') ∧
          col = name ++ markerOf suffix ++ tail) →
       ∃ b tail, b ∈ extract_building_names cols suffix ∧
         col = b ++ markerOf suffix ++ tail) := by
  constructor
  · intro b hb
    obtain ⟨col, hcol, hsome⟩ := List.mem_filterMap.1 hb
    obtain ⟨g, t, hbg, hg, _, hcolg⟩ := findSplit_some (markerOf suffix) col [] b hsome
    simp only [List.nil_append] at hbg
    subst hbg
    exact ⟨hg, col, hcol, t, hcolg⟩
  · rintro col hcol ⟨name, tail, hne, hnl, rfl⟩
    obtain ⟨b, hb⟩ := findSplit_of_split (markerOf suffix) name tail [] hne hnl
    obtain ⟨g, t, hbg, _, _, hcolg⟩ := findSplit_some (markerOf suffix) _ [] b hb
    simp only [List.nil_append] at hbg
    subst hbg
    exact ⟨b, t, List.mem_filterMap.2 ⟨name ++ markerOf suffix ++ tail, hcol, hb⟩, hcolg⟩

/-- C5 witness: the exactly formed column `"Library CHW (kbtuh)"`
contributes the non-empty name `"Library"`, which indeed starts the
column followed by the marker. -/
theorem c5_start_anchored_match_witness :
    "Library".data ≠ [] ∧
    ∃ col ∈ ["Library CHW (kbtuh)".data], ∃ tail,
      col = "Library".data ++ markerOf "CHW".data ++ tail :=
  (c5_start_anchored_match "CHW".data ["Library CHW (kbtuh)".data]).1
    "Library".data (by decide)

/-- Boolean substring test (Python `in` on strings), used to state the
no-earlier-occurrence hypothesis of the round-trip claim. -/
def hasSub (pat : List Char) : List Char → Bool
  | [] => pat.isEmpty
  | c :: rest => lpre pat (c :: rest) || hasSub pat rest

lemma hasSub_of_append (pat x y : List Char) : hasSub pat (x ++ pat ++ y) = true := by
  induction x with
  | nil =>
    cases pat with
    | nil =>
      cases y with
      | nil => rfl
      | cons c rest => simp [hasSub, lpre]
    | cons p ps =>
      show hasSub (p :: ps) ((p :: ps) ++ y) = true
      simp only [List.cons_append, hasSub, Bool.or_eq_true]
      left
      exact (lpre_iff _ _).2 ⟨y, by simp⟩
  | cons c xs ih =>
    simp only [List.cons_append, hasSub, Bool.or_eq_true]
    right
    exact ih

lemma marker_chw_length : (markerOf "CHW".data).length = 12 := by decide

lemma marker_mthw_length : (markerOf "MTHW".data).length = 13 := by decide

lemma marker_chw_no_overlap :
    ∀ d, d < 12 → 0 < d →
      lpre ((markerOf "CHW".data).drop d) (markerOf "CHW".data) = false := by
  decide

lemma marker_mthw_no_overlap :
    ∀ d, d < 13 → 0 < d →
      lpre ((markerOf "MTHW".data).drop d) (markerOf "MTHW".data) = false := by
  decide

lemma findSplit_append_marker (m : List Char) :
    ∀ (b acc : List Char), b ≠ [] → (∀ c ∈ b, c ≠ '\n') →
      (∀ j, 0 < j → j < b.length → lpre m (b.drop j ++ m) = false) →
      findSplit m acc (b ++ m) = some (acc ++ b) := by
  intro b
  induction b with
  | nil => intro acc h _ _; exact absurd rfl h
  | cons c b' ih =>
    intro acc _ hnl hno
    have hc : ¬ (c = '\n') := hnl c (List.mem_cons_self c b')
    cases b' with
    | nil =>
      have hlp : lpre m m = true := (lpre_iff _ _).2 ⟨[], (List.append_nil m).symm⟩
      show findSplit m acc (c :: m) = some (acc ++ [c])
      rw [findSplit, if_neg hc, if_pos hlp]
    | cons d b'' =>
      have h1 : lpre m ((d :: b'') ++ m) = false := by
        have := hno 1 (by omega) (by simp)
        simpa using this
      have hrec := ih (acc ++ [c]) (by simp)
        (fun ch hch => hnl ch (List.mem_cons_of_mem c hch))
        (fun j hj hjlt => by
          have := hno (j + 1) (by omega) (by simp at hjlt ⊢; omega)
          simpa using this)
      show findSplit m acc ((c :: d :: b'') ++ m) = some (acc ++ (c :: d :: b''))
      have harg : (c :: d :: b'') ++ m = c :: (d :: (b'' ++ m)) := by simp
      have h1' : ¬ (lpre m (d :: (b'' ++ m)) = true) := by
        simp only [List.cons_append] at h1
        simp [h1]
      rw [harg, findSplit, if_neg hc, if_neg h1']
      simp only [List.cons_append] at hrec
      rw [hrec]
      simp

lemma c10_core (s b : List Char) (hb : b ≠ []) (hnl : ∀ c ∈ b, c ≠ '\n')
    (hocc : hasSub (s ++ " (kbtuh)".data) b = false)
    (hover : ∀ d, 0 < d → d < (markerOf s).length →
      lpre ((markerOf s).drop d) (markerOf s) = false) :
    extract_building_names [b ++ markerOf s] s = [b] := by
  have hno : ∀ j, 0 < j → j < b.length →
      lpre (markerOf s) (b.drop j ++ markerOf s) = false := by
    intro j hj hjb
    by_contra hcon
    rw [Bool.not_eq_false] at hcon
    obtain ⟨t, ht⟩ := (lpre_iff _ _).1 hcon
    by_cases hlen : (markerOf s).length ≤ (b.drop j).length
    · -- the marker occurs wholly inside b, so b contains "<s> (kbtuh)"
      have htake := congrArg (List.take (markerOf s).length) ht
      rw [List.take_append_eq_append_take, List.take_left] at htake
      have hz : (markerOf s).length - (b.drop j).length = 0 := by omega
      rw [hz, List.take_zero] at htake
      simp only [List.append_nil] at htake
      have hsplit : b.drop j = markerOf s ++ (b.drop j).drop (markerOf s).length := by
        conv_lhs => rw [← List.take_append_drop (markerOf s).length (b.drop j)]
        rw [htake]
      have hbfull : b = (b.take j ++ " ".data) ++
          (s ++ " (kbtuh)".data) ++ (b.drop j).drop (markerOf s).length := by
        conv_lhs => rw [← List.take_append_drop j b]
        rw [hsplit]
        simp [markerOf]
      have := hasSub_of_append (s ++ " (kbtuh)".data)
        (b.take j ++ " ".data) ((b.drop j).drop (markerOf s).length)
      rw [← hbfull] at this
      rw [this] at hocc
      exact absurd hocc (by simp)
    · -- the marker would have to overlap itself, which it cannot
      have hpos : 0 < (b.drop j).length := by
        rw [List.length_drop]
        omega
      have hdrop := congrArg (List.drop (b.drop j).length) ht
      rw [List.drop_left] at hdrop
      rw [List.drop_append_eq_append_drop] at hdrop
      have hz : (b.drop j).length - (markerOf s).length = 0 := by omega
      rw [hz, List.drop_zero] at hdrop
      have : lpre ((markerOf s).drop (b.drop j).length) (markerOf s) = true :=
        (lpre_iff _ _).2 ⟨t, hdrop⟩
      rw [hover (b.drop j).length hpos (by omega)] at this
      exact absurd this (by simp)
  have hfs := findSplit_append_marker (markerOf s) b [] hb hnl hno
  simp only [List.nil_append] at hfs
  simp [extract_building_names, hfs]

/-- C10 counterexample: with the empty building name the claim's
hypothesis holds (the empty string contains no occurrence of
`"CHW (kbtuh)"`), yet the column `" CHW (kbtuh)"` yields no match at
all — the regex group must be non-empty — so the result is `[]`, not
`[""]`. -/
theorem c10_roundtrip_counterexample :
    hasSub ("CHW".data ++ " (kbtuh)".data) [] = false ∧
    extract_building_names [[] ++ markerOf "CHW".data] "CHW".data ≠ [[]] := by
  decide

/-- C10 (amended): for every NON-EMPTY newline-free building name `b`
that contains no occurrence of `"<suffix> (kbtuh)"`, and each suffix
the program actually uses (`"CHW"` or `"MTHW"`), applying
`extract_building_names` to the single column `"<b> <suffix> (kbtuh)"`
returns exactly `[b]`. -/
theorem c10_roundtrip (b s : List Char) (hb : b ≠ [])
    (hnl : ∀ c ∈ b, c ≠ '\n')
    (hs : s = "CHW".data ∨ s = "MTHW".data)
    (hocc : hasSub (s ++ " (kbtuh)".data) b = false) :
    extract_building_names [b ++ " ".data ++ s ++ " (kbtuh)".data] s = [b] := by
  have hcol : b ++ " ".data ++ s ++ " (kbtuh)".data = b ++ markerOf s := by
    simp [markerOf]
  rw [hcol]
  rcases hs with rfl | rfl
  · exact c10_core _ b hb hnl hocc
      (fun d hd hdl => marker_chw_no_overlap d
        (by rw [marker_chw_length] at hdl; exact hdl) hd)
  · exact c10_core _ b hb hnl hocc
      (fun d hd hdl => marker_mthw_no_overlap d
        (by rw [marker_mthw_length] at hdl; exact hdl) hd)

/-- C10 witness: the building `"Library"` with suffix `"CHW"` round
trips through the column `"Library CHW (kbtuh)"`. -/
theorem c10_roundtrip_witness :
    extract_building_names
      ["Library".data ++ " ".data ++ "CHW".data ++ " (kbtuh)".data] "CHW".data =
      ["Library".data] :=
  c10_roundtrip "Library".data "CHW".data (by decide) (by decide)
    (Or.inl rfl) (by decide)

/-! ## Claims about the common-buildings intersection -/

lemma sortInter_eq_of_mem_iff (X Y : List (List Char))
    (h : ∀ x, x ∈ X ↔ x ∈ Y) :
    List.insertionSort (· ≤ ·) X.dedup = List.insertionSort (· ≤ ·) Y.dedup := by
  have hperm : List.Perm X.dedup Y.dedup :=
    (List.perm_ext_iff_of_nodup (List.nodup_dedup X) (List.nodup_dedup Y)).2
      (fun a => by rw [List.mem_dedup, List.mem_dedup]; exact h a)
  exact List.eq_of_perm_of_sorted
    (((List.perm_insertionSort _ _).trans hperm).trans
      (List.perm_insertionSort _ _).symm)
    (List.sorted_insertionSort _ _) (List.sorted_insertionSort _ _)

/-- C6: `common_buildings` agrees with the spec's sorted deduplicated
set intersection of the independently parsed name lists — it is
sorted, duplicate-free, contains exactly the names extracted from both
column lists — and it is invariant under permuting either input column
list. -/
theorem c6_common_buildings_intersection (a b a' b' : List (List Char))
    (ha : List.Perm a a') (hb : List.Perm b b') :
    common_buildings a b = spec_common_buildings a b ∧
    List.Sorted (· ≤ ·) (common_buildings a b) ∧
    (common_buildings a b).Nodup ∧
    (∀ x, x ∈ common_buildings a b ↔
      x ∈ extract_building_names a "CHW".data ∧
      x ∈ extract_building_names b "MTHW".data) ∧
    common_buildings a b = common_buildings a' b' := by
  refine ⟨?_, List.sorted_insertionSort _ _, ?_, ?_, ?_⟩
  · apply sortInter_eq_of_mem_iff
    intro x
    simp [List.mem_inter_iff, List.mem_filter, List.mem_dedup, List.elem_iff]
  · exact (List.perm_insertionSort _ _).symm.nodup (List.nodup_dedup _)
  · intro x
    rw [common_buildings, (List.perm_insertionSort _ _).mem_iff,
      List.mem_dedup, List.mem_inter_iff]
  · apply sortInter_eq_of_mem_iff
    intro x
    simp only [List.mem_inter_iff, extract_building_names]
    rw [(ha.filterMap _).mem_iff, (hb.filterMap _).mem_iff]

/-- C6 witness: reordering both column lists leaves the computed
common-building list unchanged. -/
theorem c6_common_buildings_intersection_witness :
    common_buildings
        ["A CHW (kbtuh)".data, "B CHW (kbtuh)".data]
        ["B MTHW (kbtuh)".data, "A MTHW (kbtuh)".data] =
      common_buildings
        ["B CHW (kbtuh)".data, "A CHW (kbtuh)".data]
        ["A MTHW (kbtuh)".data, "B MTHW (kbtuh)".data] :=
  (c6_common_buildings_intersection
    ["A CHW (kbtuh)".data, "B CHW (kbtuh)".data]
    ["B MTHW (kbtuh)".data, "A MTHW (kbtuh)".data]
    ["B CHW (kbtuh)".data, "A CHW (kbtuh)".data]
    ["A MTHW (kbtuh)".data, "B MTHW (kbtuh)".data]
    (by decide) (by decide)).2.2.2.2

/-! ## Claims about the loader -/

/-- C7 counterexample: two rows with the same parseable timestamp both
survive the load step — the `datetime` column is NOT free of duplicate
timestamps (nothing in lines 27-30 deduplicates). -/
theorem c7_duplicate_timestamps_counterexample :
    ¬ (((load_sheet [(some 5, [(1 : ℚ)]), (some 5, [2])]).map Prod.fst).Nodup) := by
  decide

/-- C7 (amended): the loaded table is sorted ascending by the parsed
timestamp; its rows are exactly the raw rows whose timestamp parsed
(rows with unparseable timestamps are dropped, not repaired, and the
value columns ride along untouched); duplicate timestamps are NOT
removed. -/
theorem c7_load_sheet_contract (raw : List (Option Nat × List ℚ)) :
    List.Sorted tsLE (load_sheet raw) ∧
    List.Perm (load_sheet raw) (raw.filterMap parseRow) ∧
    (∀ r ∈ load_sheet raw, (some r.1, r.2) ∈ raw) ∧
    (∀ t vs, (some t, vs) ∈ raw → (t, vs) ∈ load_sheet raw) := by
  refine ⟨List.sorted_insertionSort _ _, List.perm_insertionSort _ _, ?_, ?_⟩
  · intro r hr
    have hr' : r ∈ raw.filterMap parseRow :=
      (List.perm_insertionSort _ _).mem_iff.1 hr
    obtain ⟨⟨o, vs⟩, hq, hparse⟩ := List.mem_filterMap.1 hr'
    cases o with
    | none => simp [parseRow] at hparse
    | some t0 =>
      simp only [parseRow, Option.map_some'] at hparse
      injection hparse with h
      rw [← h]
      simpa using hq
  · intro t vs hmem
    have : (t, vs) ∈ raw.filterMap parseRow :=
      List.mem_filterMap.2 ⟨(some t, vs), hmem, rfl⟩
    exact (List.perm_insertionSort _ _).mem_iff.2 this

/-- C7 witness: a row with unparseable timestamp is dropped while the
parsed row (timestamp 3, values [7]) survives. -/
theorem c7_load_sheet_contract_witness :
    ((3 : Nat), [(7 : ℚ)]) ∈ load_sheet [(none, [5]), (some 3, [7])] :=
  (c7_load_sheet_contract [(none, [5]), (some 3, [7])]).2.2.2 3 [7] (by decide)

/-- C8: if a named worksheet is absent, or a present worksheet lacks
its `Timestamp` column, `load_data` surfaces an error (the uncaught
pandas exception) and never returns a table. -/
theorem c8_missing_sheet_or_column (file : List (String × XSheet))
    (h : file.lookup "CHW hourly" = none ∨ file.lookup "MTHW hourly" = none ∨
         (∃ s, file.lookup "CHW hourly" = some s ∧ s.lookup "Timestamp" = none) ∨
         (∃ s, file.lookup "MTHW hourly" = some s ∧ s.lookup "Timestamp" = none)) :
    ∃ msg, load_data file = Except.error msg := by
  rcases h with h1 | h2 | ⟨s, hs, hts⟩ | ⟨s, hs, hts⟩
  · exact ⟨"Worksheet named " ++ "CHW hourly" ++ " not found",
      by simp [load_data, lookupSheet, h1]⟩
  · cases hc : file.lookup "CHW hourly" with
    | none =>
      exact ⟨"Worksheet named " ++ "CHW hourly" ++ " not found",
        by simp [load_data, lookupSheet, hc]⟩
    | some cs =>
      exact ⟨"Worksheet named " ++ "MTHW hourly" ++ " not found",
        by simp [load_data, lookupSheet, hc, h2]⟩
  · cases hm : file.lookup "MTHW hourly" with
    | none =>
      exact ⟨"Worksheet named " ++ "MTHW hourly" ++ " not found",
        by simp [load_data, lookupSheet, hs, hm]⟩
    | some ms =>
      exact ⟨"KeyError: " ++ "Timestamp",
        by simp [load_data, lookupSheet, getColumn, hs, hm, hts]⟩
  · cases hc : file.lookup "CHW hourly" with
    | none =>
      exact ⟨"Worksheet named " ++ "CHW hourly" ++ " not found",
        by simp [load_data, lookupSheet, hc]⟩
    | some cs =>
      cases hts2 : cs.lookup "Timestamp" with
      | none =>
        exact ⟨"KeyError: " ++ "Timestamp",
          by simp [load_data, lookupSheet, getColumn, hc, hs, hts2]⟩
      | some col =>
        exact ⟨"KeyError: " ++ "Timestamp",
          by simp [load_data, lookupSheet, getColumn, hc, hs, hts2, hts]⟩

/-- C8 witness: an empty workbook (no sheets at all) makes `load_data`
fail with an error. -/
theorem c8_missing_sheet_or_column_witness :
    ∃ msg, load_data [] = Except.error msg :=
  c8_missing_sheet_or_column [] (Or.inl rfl)

/-! ## Claims about the empty-selection control flow -/

/-- C9 counterexample: with no common building the script does stop
before any join, filter or download — but it emits NO explanatory
message: the notices list of the run is empty (`st.stop()` follows the
empty selectbox with no message in between, lines 56-59). -/
theorem c9_no_message_counterexample :
    common_buildings ["Annex CHW (kbtuh)".data] ["Library MTHW (kbtuh)".data] = [] ∧
    runApp [("Annex CHW (kbtuh)".data, [])] [("Library MTHW (kbtuh)".data, [])] 700 =
      { stoppedEarly := true, notices := [], joined := none, download := none } := by
  constructor
  · decide
  · decide

/-- C9 (amended): when the building intersection is empty the selector
has no options and the run stops early, performing no join, no filter,
no display and no download — but without emitting any explanatory
message. -/
theorem c9_empty_intersection_stops (chw mthw : BSheet) (threshold : ℚ)
    (h : common_buildings (chw.map Prod.fst) (mthw.map Prod.fst) = []) :
    runApp chw mthw threshold =
      { stoppedEarly := true, notices := [], joined := none, download := none } := by
  simp [runApp, h]

/-- C9 witness: a concrete pair of sheets with disjoint building names
stops the run early with no notices and no artifacts. -/
theorem c9_empty_intersection_stops_witness :
    runApp [("B CHW (kbtuh)".data, [])] [("C MTHW (kbtuh)".data, [])] 500 =
      { stoppedEarly := true, notices := [], joined := none, download := none } :=
  c9_empty_intersection_stops [("B CHW (kbtuh)".data, [])]
    [("C MTHW (kbtuh)".data, [])] 500 (by decide)
